import Mathlib

/-!
Verification development for the gatewayrpc repository (LevenLabs/gatewayrpc).

Part 1 embeds the schema extractor of `server.go` (`processType`,
`getFieldKey`, `isExported`, and the registration loop of
`RegisterService`).  Go's `reflect.Type` values are modelled by the
inductive `GoType`; `reflect.Kind` numbers are modelled by the `Nat`
constants used by Go's reflect package (Bool = 1 .. Float64 = 14,
Interface = 20, Map = 21, Ptr = 22, String = 24, ...).  The type
descriptor `gatewaytypes.Type` (fields `TypeOf`, `ArrayOf`, `ObjectOf`,
`MapOf`, exactly one of which is populated by the extractor) is modelled
by `Ty`; Go's `map[string]*Type` is modelled by an association list whose
`ObjectOf` is `none` exactly when the Go map is nil.

Part 2 embeds the gateway (`gateway` package): the request context
(`request.go`) and the `ServeHTTP` state machine, codec selection,
routing, CORS handling, per-call URL resolution and `AddURL`
(`gateway.go`).  External collaborators (the JSON-RPC codec, the JSON
library, DNS/SRV resolution, the upstream HTTP call) are parameters of
the model, as the spec treats them as out of scope.
-/

namespace GatewayRPC

mutual

/-- A struct field list, mutually inductive with `GoType`.  Each entry
carries the field name, the `Anonymous` flag, the value of the `json`
struct tag (`""` when absent, as returned by `Tag.Get("json")`), and the
field's type. -/
inductive FieldList where
  | nil : FieldList
  | cons (name : String) (anonymous : Bool) (jsonTag : String)
      (type : GoType) (rest : FieldList) : FieldList

/-- Model of a Go `reflect.Type` as dispatched on by `processType`.
Named interface types are distinguished from the unnamed empty interface
because `processType` compares against `typeOfEmptyInterface` by reflect
type identity: only the unnamed interface with no methods is equal to it. -/
inductive GoType where
  | bool : GoType
  | int : GoType
  | int8 : GoType
  | int16 : GoType
  | int32 : GoType
  | int64 : GoType
  | uint : GoType
  | uint8 : GoType
  | uint16 : GoType
  | uint32 : GoType
  | uint64 : GoType
  | uintptr : GoType
  | float32 : GoType
  | float64 : GoType
  | complex64 : GoType
  | complex128 : GoType
  | array (elem : GoType) : GoType
  | chan (elem : GoType) : GoType
  | fn : GoType
  | iface (name : String) (methods : List String) : GoType
  | map (key : GoType) (value : GoType) : GoType
  | ptr (elem : GoType) : GoType
  | slice (elem : GoType) : GoType
  | string : GoType
  | strct (fields : FieldList) : GoType
  | unsafePointer : GoType

end

/-- The `reflect.Kind` number of a type (the numbering of Go's reflect
package: Invalid 0, Bool 1, Int 2, ..., Float64 14, Complex64 15,
Complex128 16, Array 17, Chan 18, Func 19, Interface 20, Map 21, Ptr 22,
Slice 23, String 24, Struct 25, UnsafePointer 26). -/
def kindOf : GoType → Nat
  | .bool => 1
  | .int => 2
  | .int8 => 3
  | .int16 => 4
  | .int32 => 5
  | .int64 => 6
  | .uint => 7
  | .uint8 => 8
  | .uint16 => 9
  | .uint32 => 10
  | .uint64 => 11
  | .uintptr => 12
  | .float32 => 13
  | .float64 => 14
  | .complex64 => 15
  | .complex128 => 16
  | .array _ => 17
  | .chan _ => 18
  | .fn => 19
  | .iface _ _ => 20
  | .map _ _ => 21
  | .ptr _ => 22
  | .slice _ => 23
  | .string => 24
  | .strct _ => 25
  | .unsafePointer => 26

/-- Model of `gatewaytypes.Type`: `TypeOf reflect.Kind`, `ArrayOf *Type`,
`ObjectOf map[string]*Type`, `MapOf *Type`.  A `none` in `objectOf`
models the nil Go map (the zero value), `some` models a non-nil map.
`0` in `typeOf` models `reflect.Invalid`, the zero Kind. -/
inductive Ty where
  | mk (typeOf : Nat) (arrayOf : Option Ty)
      (objectOf : Option (List (String × Ty))) (mapOf : Option Ty) : Ty

def Ty.typeOf : Ty → Nat
  | .mk k _ _ _ => k

def Ty.arrayOf : Ty → Option Ty
  | .mk _ a _ _ => a

def Ty.objectOf : Ty → Option (List (String × Ty))
  | .mk _ _ o _ => o

def Ty.mapOf : Ty → Option Ty
  | .mk _ _ _ m => m

/-- `len(t.ObjectOf)` in Go: the length of a nil map is 0. -/
def Ty.objectLen (t : Ty) : Nat :=
  match t.objectOf with
  | none => 0
  | some l => l.length

/-- The entries of the `ObjectOf` map (empty for a nil map), used when
ranging over `innerT.ObjectOf`. -/
def Ty.objectFields (t : Ty) : List (String × Ty) :=
  match t.objectOf with
  | none => []
  | some l => l

/-- A scalar leaf `&Type{TypeOf: kind}`. -/
def scalarTy (kind : Nat) : Ty := .mk kind none none none

/-- Go map assignment `m[k] = v` on the association-list model: replaces
the binding of an existing key, otherwise appends. -/
def tySet : List (String × Ty) → String → Ty → List (String × Ty)
  | [], k, v => [(k, v)]
  | (k', v') :: rest, k, v =>
    if k' = k then (k, v) :: rest else (k', v') :: tySet rest k v

/-- `for k, v := range inner { m[k] = v }`: fold the inner map's entries
into `m` by Go map assignment. -/
def tyMerge (m : List (String × Ty)) : List (String × Ty) → List (String × Ty)
  | [] => m
  | (k, v) :: rest => tyMerge (tySet m k v) rest

/-- `isExported` of server.go: the first rune of the name is upper case
(false for the empty name, whose decoded rune is the replacement
character). -/
def isExported (name : String) : Bool :=
  match name.toList with
  | [] => false
  | c :: _ => c.isUpper

/-- The longest prefix of `s` not containing `c`: this is
`strings.SplitN(s, c, 2)[0]` (and also `s[:strings.Index(s, c)]` when `c`
occurs). -/
def prefixBefore (s : String) (c : Char) : String :=
  String.mk (s.toList.takeWhile (fun ch => ch ≠ c))

/-- `getFieldKey` of server.go: the first comma-delimited segment of the
`json` tag if the tag is present and that segment is non-empty, otherwise
the field's declared name.  (`SplitN(tag, ",", 2)` on a non-empty tag
always returns a non-empty slice whose head is the prefix before the
first comma, so the `len(parts) == 0` branch of the source is dead.) -/
def getFieldKey (name : String) (jsonTag : String) : String :=
  if jsonTag = "" then name
  else
    let first := prefixBefore jsonTag ','
    if first = "" then name else first

/-- Lookup `interface{}` identity: `t == typeOfEmptyInterface` holds
exactly for the unnamed interface type with no methods. -/
def isEmptyInterface (name : String) (methods : List String) : Bool :=
  name == "" && methods.isEmpty

mutual

-- `processType` and the two functions below decompose server.go's
-- `processType` and its struct field loop.  `processType t` performs the
-- single pointer dereference (`if t.Kind() == reflect.Ptr { t = t.Elem() }`)
-- and then dispatches on the kind; `processAfterDeref` is the same
-- dispatch applied to an already-dereferenced type, where a type whose
-- kind still falls through every branch of the source's if-chain
-- (Ptr — a double pointer —, Chan, Func, Complex64/128, UnsafePointer)
-- yields the "unsupported type" error.  The scalar branch of the source
-- (`kind >= reflect.Bool && kind <= reflect.Float64 || kind == reflect.String`)
-- is spelled out per constructor: exactly the kinds 1..14 and 24.

/-- `processType` of server.go: dereference one pointer layer, then
dispatch on the kind; recursive calls in the source are to `processType`
itself (so element and field types get their own dereference). -/
def processType : GoType → Except String Ty
  | .ptr u => processAfterDeref u
  | .bool => .ok (scalarTy 1)
  | .int => .ok (scalarTy 2)
  | .int8 => .ok (scalarTy 3)
  | .int16 => .ok (scalarTy 4)
  | .int32 => .ok (scalarTy 5)
  | .int64 => .ok (scalarTy 6)
  | .uint => .ok (scalarTy 7)
  | .uint8 => .ok (scalarTy 8)
  | .uint16 => .ok (scalarTy 9)
  | .uint32 => .ok (scalarTy 10)
  | .uint64 => .ok (scalarTy 11)
  | .uintptr => .ok (scalarTy 12)
  | .float32 => .ok (scalarTy 13)
  | .float64 => .ok (scalarTy 14)
  | .string => .ok (scalarTy 24)
  | .array e =>
    match processType e with
    | .error err => .error err
    | .ok innerT => .ok (Ty.mk 0 (some innerT) none none)
  | .slice e =>
    match processType e with
    | .error err => .error err
    | .ok innerT => .ok (Ty.mk 0 (some innerT) none none)
  | .map key value =>
    if kindOf key ≠ 24 then .error "unsupported map type"
    else
      match processType value with
      | .error err => .error err
      | .ok innerT => .ok (Ty.mk 0 none none (some innerT))
  | .iface name methods =>
    if isEmptyInterface name methods then .ok (scalarTy 20)
    else .error "unsupported interface"
  | .strct fields =>
    match processFieldsGo fields [] with
    | .error err => .error err
    | .ok m => .ok (Ty.mk 0 none (some m) none)
  | .chan _ => .error "unsupported type"
  | .fn => .error "unsupported type"
  | .complex64 => .error "unsupported type"
  | .complex128 => .error "unsupported type"
  | .unsafePointer => .error "unsupported type"
termination_by structural t => t

/-- The dispatch of `processType` on an already-dereferenced type: the
same branches, except that a (second) pointer layer is not dereferenced
again — kind Ptr falls through the source's if-chain to the
"unsupported type" error. -/
def processAfterDeref : GoType → Except String Ty
  | .ptr _ => .error "unsupported type"
  | .bool => .ok (scalarTy 1)
  | .int => .ok (scalarTy 2)
  | .int8 => .ok (scalarTy 3)
  | .int16 => .ok (scalarTy 4)
  | .int32 => .ok (scalarTy 5)
  | .int64 => .ok (scalarTy 6)
  | .uint => .ok (scalarTy 7)
  | .uint8 => .ok (scalarTy 8)
  | .uint16 => .ok (scalarTy 9)
  | .uint32 => .ok (scalarTy 10)
  | .uint64 => .ok (scalarTy 11)
  | .uintptr => .ok (scalarTy 12)
  | .float32 => .ok (scalarTy 13)
  | .float64 => .ok (scalarTy 14)
  | .string => .ok (scalarTy 24)
  | .array e =>
    match processType e with
    | .error err => .error err
    | .ok innerT => .ok (Ty.mk 0 (some innerT) none none)
  | .slice e =>
    match processType e with
    | .error err => .error err
    | .ok innerT => .ok (Ty.mk 0 (some innerT) none none)
  | .map key value =>
    if kindOf key ≠ 24 then .error "unsupported map type"
    else
      match processType value with
      | .error err => .error err
      | .ok innerT => .ok (Ty.mk 0 none none (some innerT))
  | .iface name methods =>
    if isEmptyInterface name methods then .ok (scalarTy 20)
    else .error "unsupported interface"
  | .strct fields =>
    match processFieldsGo fields [] with
    | .error err => .error err
    | .ok m => .ok (Ty.mk 0 none (some m) none)
  | .chan _ => .error "unsupported type"
  | .fn => .error "unsupported type"
  | .complex64 => .error "unsupported type"
  | .complex128 => .error "unsupported type"
  | .unsafePointer => .error "unsupported type"
termination_by structural t => t

/-- The field loop of the struct branch of `processType`, carrying the
map `m` built so far.  Unexported fields are skipped; the computed key is
`getFieldKey`; an anonymous field whose walked type has a non-empty
`ObjectOf` map (`len(innerT.ObjectOf) > 0`) is merged; every other field
is inserted under its computed key. -/
def processFieldsGo : FieldList → List (String × Ty) → Except String (List (String × Ty))
  | .nil, m => .ok m
  | .cons name anonymous jsonTag ftype rest, m =>
    if isExported name then
      match processType ftype with
      | .error err => .error err
      | .ok innerT =>
        if anonymous ∧ 0 < innerT.objectLen then
          processFieldsGo rest (tyMerge m innerT.objectFields)
        else
          processFieldsGo rest (tySet m (getFieldKey name jsonTag) innerT)
    else processFieldsGo rest m
termination_by structural fields => fields

end

/-- `processType` is the post-dereference dispatch applied to the type
with one pointer layer stripped. -/
theorem processType_eq_afterDeref (t : GoType) :
    processType t = processAfterDeref (match t with | GoType.ptr u => u | v => v) := by
  cases t <;> simp only [processType, processAfterDeref]

mutual

/-- Modelled from the spec: the type walk as the claim states its
flattening rule, identical to `processType` except in the struct branch
(`claimFields`), where an anonymous field is merged whenever its walk
yields an object arm at all (`ObjectOf` non-nil), including an object
arm with zero fields. -/
def processTypeClaim : GoType → Except String Ty
  | .ptr u => claimAfterDeref u
  | .bool => .ok (scalarTy 1)
  | .int => .ok (scalarTy 2)
  | .int8 => .ok (scalarTy 3)
  | .int16 => .ok (scalarTy 4)
  | .int32 => .ok (scalarTy 5)
  | .int64 => .ok (scalarTy 6)
  | .uint => .ok (scalarTy 7)
  | .uint8 => .ok (scalarTy 8)
  | .uint16 => .ok (scalarTy 9)
  | .uint32 => .ok (scalarTy 10)
  | .uint64 => .ok (scalarTy 11)
  | .uintptr => .ok (scalarTy 12)
  | .float32 => .ok (scalarTy 13)
  | .float64 => .ok (scalarTy 14)
  | .string => .ok (scalarTy 24)
  | .array e =>
    match processTypeClaim e with
    | .error err => .error err
    | .ok innerT => .ok (Ty.mk 0 (some innerT) none none)
  | .slice e =>
    match processTypeClaim e with
    | .error err => .error err
    | .ok innerT => .ok (Ty.mk 0 (some innerT) none none)
  | .map key value =>
    if kindOf key ≠ 24 then .error "unsupported map type"
    else
      match processTypeClaim value with
      | .error err => .error err
      | .ok innerT => .ok (Ty.mk 0 none none (some innerT))
  | .iface name methods =>
    if isEmptyInterface name methods then .ok (scalarTy 20)
    else .error "unsupported interface"
  | .strct fields =>
    match claimFields fields [] with
    | .error err => .error err
    | .ok m => .ok (Ty.mk 0 none (some m) none)
  | .chan _ => .error "unsupported type"
  | .fn => .error "unsupported type"
  | .complex64 => .error "unsupported type"
  | .complex128 => .error "unsupported type"
  | .unsafePointer => .error "unsupported type"
termination_by structural t => t

/-- Modelled from the spec: the claim's post-dereference dispatch. -/
def claimAfterDeref : GoType → Except String Ty
  | .ptr _ => .error "unsupported type"
  | .bool => .ok (scalarTy 1)
  | .int => .ok (scalarTy 2)
  | .int8 => .ok (scalarTy 3)
  | .int16 => .ok (scalarTy 4)
  | .int32 => .ok (scalarTy 5)
  | .int64 => .ok (scalarTy 6)
  | .uint => .ok (scalarTy 7)
  | .uint8 => .ok (scalarTy 8)
  | .uint16 => .ok (scalarTy 9)
  | .uint32 => .ok (scalarTy 10)
  | .uint64 => .ok (scalarTy 11)
  | .uintptr => .ok (scalarTy 12)
  | .float32 => .ok (scalarTy 13)
  | .float64 => .ok (scalarTy 14)
  | .string => .ok (scalarTy 24)
  | .array e =>
    match processTypeClaim e with
    | .error err => .error err
    | .ok innerT => .ok (Ty.mk 0 (some innerT) none none)
  | .slice e =>
    match processTypeClaim e with
    | .error err => .error err
    | .ok innerT => .ok (Ty.mk 0 (some innerT) none none)
  | .map key value =>
    if kindOf key ≠ 24 then .error "unsupported map type"
    else
      match processTypeClaim value with
      | .error err => .error err
      | .ok innerT => .ok (Ty.mk 0 none none (some innerT))
  | .iface name methods =>
    if isEmptyInterface name methods then .ok (scalarTy 20)
    else .error "unsupported interface"
  | .strct fields =>
    match claimFields fields [] with
    | .error err => .error err
    | .ok m => .ok (Ty.mk 0 none (some m) none)
  | .chan _ => .error "unsupported type"
  | .fn => .error "unsupported type"
  | .complex64 => .error "unsupported type"
  | .complex128 => .error "unsupported type"
  | .unsafePointer => .error "unsupported type"
termination_by structural t => t

/-- Modelled from the spec: the field loop under the claim's flattening
rule — merge iff the field is anonymous and the recursive walk of its
type yields an object arm (of any number of fields, zero included). -/
def claimFields : FieldList → List (String × Ty) → Except String (List (String × Ty))
  | .nil, m => .ok m
  | .cons name anonymous jsonTag ftype rest, m =>
    if isExported name then
      match processTypeClaim ftype with
      | .error err => .error err
      | .ok innerT =>
        if anonymous ∧ (Ty.objectOf innerT).isSome then
          claimFields rest (tyMerge m innerT.objectFields)
        else
          claimFields rest (tySet m (getFieldKey name jsonTag) innerT)
    else claimFields rest m
termination_by structural fields => fields

end

/-- Model of the method loop of `RegisterService` in server.go: for each
accepted method, walk the args type and the reply type; the first walk
error aborts registration as a whole, otherwise the method record is
added to the service's method map. -/
structure SMethod where
  name : String
  args : Ty
  returns : Ty

def registerMethods : List (String × GoType × GoType) →
    List (String × SMethod) → Except String (List (String × SMethod))
  | [], acc => .ok acc
  | (name, argsT, replyT) :: rest, acc =>
    match processType argsT with
    | .error err => .error err
    | .ok args =>
      match processType replyT with
      | .error err => .error err
      | .ok res => registerMethods rest (acc ++ [(name, ⟨name, args, res⟩)])

/-- A JSON value, modelling what `encoding/json` round-trips through a
`json.RawMessage`. -/
inductive Json where
  | null : Json
  | bool (b : Bool) : Json
  | num (n : Int) : Json
  | str (s : String) : Json
  | arr (elems : List Json) : Json
  | obj (fields : List (String × Json)) : Json

/-- Model of `net/url.URL` (the fields relevant here; `User` is modelled
as an optional string). -/
structure URL where
  scheme : String
  opaquePart : String
  user : Option String
  host : String
  path : String
  rawPath : String
  rawQuery : String
  fragment : String
deriving DecidableEq

/-- `Gateway.resolveURL`: copy the given URL and replace only its host
with the result of `srv.MaybeSRV(host)` (modelled by the `resolve`
parameter; `MaybeSRV` returns its argument unchanged when SRV resolution
does not apply or fails). -/
def resolveURL (resolve : String → String) (u : URL) : URL :=
  { u with host := resolve u.host }

/-- `gatewaytypes.Method`. -/
structure GMethod where
  name : String
  args : Option Ty
  returns : Option Ty

/-- `gatewaytypes.Service`: the methods map is an association list. -/
structure GService where
  name : String
  methods : List (String × GMethod)

/-- `remoteService` of gateway.go: the service, the parsed URL stored by
`AddURL` (`none` only for the zero value), and the original URL string. -/
structure RemoteService where
  service : GService
  url : Option URL
  origURL : String

/-- The zero value of `remoteService` (what the named return of
`getMethod` holds on the error path). -/
def emptyRemoteService : RemoteService := ⟨⟨"", []⟩, none, ""⟩

/-- Go map lookup on the association-list model. -/
def assocGet {α : Type} : List (String × α) → String → Option α
  | [], _ => none
  | (k, v) :: rest, key => if k = key then some v else assocGet rest key

/-- Go map assignment on the association-list model. -/
def assocSet {α : Type} : List (String × α) → String → α → List (String × α)
  | [], k, v => [(k, v)]
  | (k', v') :: rest, k, v =>
    if k' = k then (k, v) :: rest else (k', v') :: assocSet rest k v

/-- One call a `RequestCallback` makes on its `*Request`; a callback run
is a finite sequence of such calls (the context must not be retained
past the callback's return). -/
inductive CbOp where
  | writeError (status : Nat) (err : String) : CbOp
  | writeResponse (v : Json) : CbOp
  | updateRequest (method : String) (params : Option Json) : CbOp
  | readRequest : CbOp

/-- Something written to the client through the response writer: a
plain-text error from `writeErrorf`, or a JSON-RPC error/response framed
by the codec request. -/
inductive ClientWrite where
  | plainError (status : Nat) (msg : String) : ClientWrite
  | codecError (status : Nat) (err : String) : ClientWrite
  | codecResponse (v : Json) : ClientWrite

/-- The mutable state of a `gateway.Request`: the pending method
override, the pending raw-argument bytes (`none` models `len(args) == 0`;
any marshalled JSON value is non-empty), the responded flag, and the
codec writes performed so far. -/
structure ReqCtx where
  newMethod : String
  args : Option Json
  responded : Bool
  writes : List ClientWrite

/-- The `Request` as `ServeHTTP` constructs it, before the callback has
done anything. -/
def initialReqCtx : ReqCtx := ⟨"", none, false, []⟩

/-- `Request.Method`: the override if set, otherwise the codec-reported
method (`codecMethod` is what `codecReq.Method()` returns). -/
def ReqCtx.methodOf (r : ReqCtx) (codecMethod : Except String String) :
    Except String String :=
  if r.newMethod ≠ "" then .ok r.newMethod else codecMethod

/-- `Request.ReadRequest`: decode from the pending argument bytes if any
were stored, otherwise from the codec (`codecRead` is what
`codecReq.ReadRequest` decodes). -/
def ReqCtx.readRequest (r : ReqCtx) (codecRead : Except String Json) :
    Except String Json :=
  match r.args with
  | some a => .ok a
  | none => codecRead

/-- `Request.UpdateRequest`: an empty method leaves the override alone; a
nil params leaves the argument bytes alone; otherwise params is
marshalled into the pending argument bytes (marshalling a `Json` value
cannot fail, so the error return of the source is always nil here). -/
def ReqCtx.updateRequest (r : ReqCtx) (method : String) (params : Option Json) :
    ReqCtx :=
  let r1 := if method ≠ "" then { r with newMethod := method } else r
  match params with
  | none => r1
  | some p => { r1 with args := some p }

/-- `Request.WriteError`: latch the responded flag and write through the
codec request. -/
def ReqCtx.writeError (r : ReqCtx) (status : Nat) (err : String) : ReqCtx :=
  { r with responded := true, writes := r.writes ++ [.codecError status err] }

/-- `Request.WriteResponse`: latch the responded flag and write through
the codec request. -/
def ReqCtx.writeResponse (r : ReqCtx) (v : Json) : ReqCtx :=
  { r with responded := true, writes := r.writes ++ [.codecResponse v] }

/-- `Request.getClientRequest`: if no argument bytes are pending, read
them from the codec; then encode a fresh JSON-RPC client envelope with
the effective method and those arguments. -/
def ReqCtx.getClientRequest (r : ReqCtx) (codecMethod : Except String String)
    (codecRead : Except String Json) : Except String (String × Json) :=
  match (match r.args with | some a => Except.ok a | none => codecRead) with
  | .error err => .error err
  | .ok a =>
    match ReqCtx.methodOf { r with args := some a } codecMethod with
    | .error err => .error err
    | .ok m => .ok (m, a)

/-- Apply one callback call to the request state. -/
def applyCbOp (op : CbOp) (r : ReqCtx) : ReqCtx :=
  match op with
  | .writeError status err => r.writeError status err
  | .writeResponse v => r.writeResponse v
  | .updateRequest method params => r.updateRequest method params
  | .readRequest => r

/-- Run a callback (its sequence of `Request` calls) over the request
state. -/
def runCallback : List CbOp → ReqCtx → ReqCtx
  | [], r => r
  | op :: rest, r => runCallback rest (applyCbOp op r)

/-- Whether a callback call is one of the terminal writes. -/
def CbOp.isWrite : CbOp → Bool
  | .writeError _ _ => true
  | .writeResponse _ => true
  | _ => false

/-- The gateway's configuration and state: the service registry, the
codec map (codecs are identified by a number), the backup handler and
request callback (modelled by presence / the callback's calls), the CORS
matcher, and the SRV resolution function.  The 30-second poll channel
and the refresh goroutine are concurrency and are not part of this
sequential model. -/
structure Gateway where
  services : List (String × RemoteService)
  codecs : List (String × Nat)
  backupHandler : Bool
  requestCallback : Option (List CbOp)
  corsMatch : Option (String → Bool)
  srvResolve : String → String

/-- The parts of the incoming HTTP request the handler inspects. -/
structure HttpReq where
  method : String
  contentType : String
  origin : String

/-- Per-request behavior of the external collaborators: what
`codecReq.Method()` returns, what `codecReq.ReadRequest` decodes, and the
status and decode result of the buffered backend response. -/
structure ReqEffects where
  codecMethod : Except String String
  codecRead : Except String Json
  backendStatus : Nat
  backendDecode : Except String Json

/-- Where the (possibly rewritten) request was forwarded: the backup
handler, or the external forwarder with the request URL it was given. -/
inductive FwdTarget where
  | backup : FwdTarget
  | external (u : Option URL) : FwdTarget

/-- Everything observable about one `ServeHTTP` invocation: response
headers added, the ordered client writes, the codec selected, the
outgoing client envelope built by `getClientRequest` (if any), the
forward target actually invoked (if any), and the service registry when
the handler returns. -/
structure ServeResult where
  headers : List (String × String)
  writes : List ClientWrite
  codecUsed : Option Nat
  envelope : Option (String × Json)
  forwardedTo : Option FwdTarget
  finalServices : List (String × RemoteService)

/-- Lowercasing, as `strings.ToLower` applies per character. -/
def toLowerStr (s : String) : String :=
  String.mk (s.toList.map Char.toLower)

/-- The CORS headers added when the Origin header matches. -/
def corsHeadersList (origin : String) : List (String × String) :=
  [("Access-Control-Allow-Origin", origin),
   ("Access-Control-Allow-Methods", "GET, POST, OPTIONS"),
   ("Access-Control-Allow-Credentials", "true"),
   ("Access-Control-Allow-Headers", "DNT, User-Agent, X-Requested-With, Content-Type")]

/-- The headers `ServeHTTP` adds before anything else: the CORS set when
the Origin header is non-empty, a matcher is configured, and it matches. -/
def serveHeaders (g : Gateway) (r : HttpReq) : List (String × String) :=
  match g.corsMatch with
  | some corsOK => if r.origin ≠ "" ∧ corsOK r.origin then corsHeadersList r.origin else []
  | none => []

/-- Codec selection of `ServeHTTP`: strip the Content-Type at the first
semicolon; if the stripped Content-Type is empty and exactly one codec is
registered, take it (the map's only entry); otherwise look up the
lowercased Content-Type. -/
def selectCodec (codecs : List (String × Nat)) (contentTypeHeader : String) :
    Option Nat :=
  let contentType := prefixBefore contentTypeHeader ';'
  if contentType = "" ∧ codecs.length = 1 then
    (codecs.head?).map Prod.snd
  else
    assocGet codecs (toLowerStr contentType)

/-- Modelled from the spec: codec selection as the claim orders it — the
stripped, lowercased Content-Type is looked up first; if nothing is
registered under it and the stripped Content-Type is empty while exactly
one codec is registered, that codec is used; otherwise none (415). -/
def selectCodecSpec (codecs : List (String × Nat)) (contentTypeHeader : String) :
    Option Nat :=
  let contentType := prefixBefore contentTypeHeader ';'
  match assocGet codecs (toLowerStr contentType) with
  | some c => some c
  | none =>
    if contentType = "" ∧ codecs.length = 1 then (codecs.head?).map Prod.snd
    else none

/-- `strings.SplitN(mStr, ".", 2)`: `none` when the method contains no
dot (the slice has one element), otherwise the segments before and after
the first dot. -/
def splitMethod (mStr : String) : Option (String × String) :=
  if mStr.toList.contains '.' then
    some (String.mk (mStr.toList.takeWhile (fun c => c ≠ '.')),
          String.mk ((mStr.toList.dropWhile (fun c => c ≠ '.')).tail))
  else none

/-- `Gateway.getMethod`: split the method, look up the service, look up
the method. -/
def getMethod (g : Gateway) (mStr : String) :
    Except String (RemoteService × GMethod) :=
  match splitMethod mStr with
  | none => .error "invalid method endpoint given"
  | some (srvName, mName) =>
    match assocGet g.services srvName with
    | none => .error "no remote service for given name"
    | some rsrv =>
      match assocGet rsrv.service.methods mName with
      | none => .error "remote service cannot handle this method"
      | some m => .ok (rsrv, m)

/-- `Gateway.GetMethodURL`: resolve the stored URL of the method's
service per call.  (On a failed lookup the source resolves the zero
entry's nil URL, a nil-pointer dereference; that path is modelled as
`none`.) -/
def getMethodURL (g : Gateway) (mStr : String) : Option URL × Option String :=
  match getMethod g mStr with
  | .ok (rsrv, _) => (rsrv.url.map (resolveURL g.srvResolve), none)
  | .error err => (none, some err)

/-- The tail of `ServeHTTP` once a codec and a target handler are fixed:
run the callback (if configured) on a fresh request context; stop if it
responded; otherwise build the outgoing client envelope (500 on
failure), forward to the target, and re-frame the buffered backend
response through the codec (its decode error is reported at the
backend's status code). -/
def serveTail (g : Gateway) (eff : ReqEffects) (hdrs : List (String × String))
    (c : Nat) (tgt : FwdTarget) : ServeResult :=
  let st := match g.requestCallback with
    | some ops => runCallback ops initialReqCtx
    | none => initialReqCtx
  if st.responded then
    ⟨hdrs, st.writes, some c, none, none, g.services⟩
  else
    match ReqCtx.getClientRequest st eff.codecMethod eff.codecRead with
    | .error err => ⟨hdrs, st.writes ++ [.codecError 500 err], some c, none, none, g.services⟩
    | .ok env =>
      match eff.backendDecode with
      | .error err =>
        ⟨hdrs, st.writes ++ [.codecError eff.backendStatus err], some c, some env, some tgt, g.services⟩
      | .ok v =>
        ⟨hdrs, st.writes ++ [.codecResponse v], some c, some env, some tgt, g.services⟩

/-- `Gateway.ServeHTTP` as a sequential state machine (the periodic
refresh goroutine is out of this model): CORS headers, OPTIONS early
return, 405 on non-POST, codec selection (415 on failure), method
extraction (400 via the codec on failure), routing (backup handler if
configured, else 400 via the codec), then `serveTail`. -/
def serveHTTP (g : Gateway) (r : HttpReq) (eff : ReqEffects) : ServeResult :=
  let hdrs := serveHeaders g r
  if r.method = "OPTIONS" then
    ⟨hdrs, [], none, none, none, g.services⟩
  else if r.method ≠ "POST" then
    ⟨hdrs, [.plainError 405 ("rpc: POST method required, received " ++ r.method)],
      none, none, none, g.services⟩
  else
    match selectCodec g.codecs r.contentType with
    | none =>
      ⟨hdrs, [.plainError 415 ("rpc: unrecognized Content-Type: " ++ prefixBefore r.contentType ';')],
        none, none, none, g.services⟩
    | some c =>
      match eff.codecMethod with
      | .error err => ⟨hdrs, [.codecError 400 err], some c, none, none, g.services⟩
      | .ok m =>
        match getMethod g m with
        | .error err =>
          if g.backupHandler then
            serveTail g eff hdrs c .backup
          else
            ⟨hdrs, [.codecError 400 err], some c, none, none, g.services⟩
        | .ok (rsrv, _) =>
          serveTail g eff hdrs c (.external (rsrv.url.map (resolveURL g.srvResolve)))

/-- `insertServices`: the loop in `AddURL` that, under the write lock,
stores every returned service under its name (overwriting same-named
entries), each pointing at the parsed URL and remembering the original
string. -/
def insertServices (m : List (String × RemoteService)) (svcs : List GService)
    (uu : URL) (orig : String) : List (String × RemoteService) :=
  match svcs with
  | [] => m
  | s :: rest => insertServices (assocSet m s.name ⟨s, some uu, orig⟩) rest uu orig

/-- The test `strings.HasPrefix(u, "http")` of `AddURL` (note `https`
URLs also pass it). -/
def httpPrefixed (s : String) : Bool :=
  List.isPrefixOf "http".toList s.toList

/-- `Gateway.AddURL`: start the string with `http://` when it does not
already start with `http`, parse it (`parseURL` models `url.Parse`),
reject an empty host, resolve the host for the introspection call only,
perform `RPC.GetServices` (`fetch`), and only on success insert the
returned services.  Returns the error and the gateway state after the
call. -/
def addURL (parseURL : String → Option URL)
    (fetch : URL → Except String (List GService)) (g : Gateway) (u0 : String) :
    Except String Unit × Gateway :=
  let u := if httpPrefixed u0 then u0 else "http://" ++ u0
  match parseURL u with
  | none => (.error "url parse error", g)
  | some uu =>
    if uu.host = "" then (.error "invalid url specified", g)
    else
      match fetch (resolveURL g.srvResolve uu) with
      | .error err => (.error err, g)
      | .ok svcs =>
        (.ok (), { g with services := insertServices g.services svcs uu u })



/-! Helper lemmas. -/

theorem objectLen_some_nil {t : Ty} (h : t.objectOf = some []) : t.objectLen = 0 := by
  simp [Ty.objectLen, h]

theorem objectLen_none {t : Ty} (h : t.objectOf = none) : t.objectLen = 0 := by
  simp [Ty.objectLen, h]

theorem objectLen_pos {t : Ty} {l : List (String × Ty)} (h : t.objectOf = some l)
    (hl : l ≠ []) : 0 < t.objectLen := by
  simp [Ty.objectLen, h]
  exact List.length_pos.mpr hl

theorem objectFields_some {t : Ty} {l : List (String × Ty)} (h : t.objectOf = some l) :
    t.objectFields = l := by
  simp [Ty.objectFields, h]

theorem kindOf_eq_24_iff {k : GoType} : kindOf k = 24 ↔ k = GoType.string := by
  cases k <;> simp [kindOf]

/-! Claims about the schema extractor. -/

/-- Claim C7: a map type whose key kind is not String fails the walk with
the "unsupported map type" error; with a string key the result is a map
arm whose child is the recursive walk of the value type (a failing child
walk propagates); and a service registration one of whose method types is
such a rejected map fails as a whole. -/
theorem claim_C7 (k v : GoType) :
    (kindOf k ≠ 24 → processType (GoType.map k v) = .error "unsupported map type")
    ∧ (kindOf k = 24 → processType (GoType.map k v) =
        match processType v with
        | .error err => .error err
        | .ok innerT => .ok (Ty.mk 0 none none (some innerT)))
    ∧ (∀ (pre post : List (String × GoType × GoType)) (name : String) (replyT : GoType)
        (acc : List (String × SMethod)), kindOf k ≠ 24 →
        ∃ e, registerMethods (pre ++ (name, GoType.map k v, replyT) :: post) acc = .error e) := by
  have hmap : ∀ _ : kindOf k ≠ 24,
      processType (GoType.map k v) = .error "unsupported map type" := by
    intro hk
    rw [processType, if_pos hk]
  refine ⟨hmap, ?_, ?_⟩
  · intro hk
    rw [processType, if_neg (by simp [hk])]
  · intro pre post name replyT acc hk
    induction pre generalizing acc with
    | nil =>
      refine ⟨"unsupported map type", ?_⟩
      rw [List.nil_append, registerMethods, hmap hk]
    | cons hd tl ih =>
      obtain ⟨n, argsT, replyT'⟩ := hd
      rw [List.cons_append, registerMethods]
      cases hargs : processType argsT with
      | error e => exact ⟨e, rfl⟩
      | ok a =>
        cases hreply : processType replyT' with
        | error e => exact ⟨e, rfl⟩
        | ok b => exact ih _

/-- Witness for C7 at concrete types: a map with int keys is rejected and
aborts registration; a map with string keys to string walks to a map arm
of a string scalar. -/
theorem claim_C7_witness :
    processType (GoType.map GoType.int GoType.string) = .error "unsupported map type"
    ∧ processType (GoType.map GoType.string GoType.string) =
        .ok (Ty.mk 0 none none (some (scalarTy 24)))
    ∧ ∃ e, registerMethods [("Foo", GoType.map GoType.int GoType.string, GoType.string)] []
        = .error e := by
  refine ⟨(claim_C7 GoType.int GoType.string).1 (by decide), ?_, ?_⟩
  · rw [(claim_C7 GoType.string GoType.string).2.1 (by decide)]
    rfl
  · exact (claim_C7 GoType.int GoType.string).2.2 [] [] "Foo" GoType.string [] (by decide)

/-- Claim C8: the unnamed empty interface (`interface{}`) walks to a
scalar leaf carrying the Interface kind (the dynamic-any kind, 20); every
other interface type — named, or carrying methods — fails the walk with
the "unsupported interface" error. -/
theorem claim_C8 (name : String) (methods : List String) :
    ((name = "" ∧ methods = []) →
      processType (GoType.iface name methods) = .ok (scalarTy 20))
    ∧ (¬(name = "" ∧ methods = []) →
      processType (GoType.iface name methods) = .error "unsupported interface") := by
  constructor
  · rintro ⟨h1, h2⟩
    subst h1; subst h2
    rfl
  · intro h
    rw [processType, if_neg]
    simp only [isEmptyInterface, Bool.and_eq_true, beq_iff_eq, List.isEmpty_iff,
      not_and]
    intro h1 h2
    exact h ⟨h1, h2⟩

/-- Witness for C8: `interface{}` is dynamic-any; a named interface with
a method is rejected. -/
theorem claim_C8_witness :
    processType (GoType.iface "" []) = .ok (scalarTy 20)
    ∧ processType (GoType.iface "Stringer" ["String"]) = .error "unsupported interface" := by
  exact ⟨(claim_C8 "" []).1 ⟨rfl, rfl⟩,
    (claim_C8 "Stringer" ["String"]).2 (by simp)⟩

/-- The struct type of the C1 counterexample: one exported, anonymous
(embedded) field named `E` with json tag `e`, whose type is an empty
struct — its walk yields an object arm with zero fields. -/
def c1Example : GoType := .strct (.cons "E" true "e" (.strct .nil) .nil)

/-- Counterexample for claim C1: on an embedded field whose walk is an
object arm with zero fields, the code inserts the empty object under the
field's computed key `e` (the merge test is `len(innerT.ObjectOf) > 0`,
not "the walk yields an object arm"), while the claim's flattening rule
(`processTypeClaim`) merges the empty field map and produces an object
with no `e` key.  The two walks disagree at this input, refuting the
claim's "in particular" case. -/
theorem claim_C1_counterexample :
    processType c1Example = .ok (Ty.mk 0 none (some [("e", Ty.mk 0 none (some []) none)]) none)
    ∧ processTypeClaim c1Example = .ok (Ty.mk 0 none (some []) none)
    ∧ processType c1Example ≠ processTypeClaim c1Example := by
  refine ⟨rfl, rfl, ?_⟩
  intro h
  rw [show processType c1Example
        = .ok (Ty.mk 0 none (some [("e", Ty.mk 0 none (some []) none)]) none) from rfl,
      show processTypeClaim c1Example = .ok (Ty.mk 0 none (some []) none) from rfl] at h
  simp at h

/-- Claim C1 as amended: in the struct walk, exported fields are
processed in textual order over a shared map; an anonymous field whose
walk is an object arm with at least one field is merged (later entries
winning by map assignment); an anonymous field whose walk is an object
arm with zero fields, an anonymous field whose walk is not an object
arm, and every non-anonymous field, are inserted under the computed wire
key; unexported fields are skipped; and a struct walk is the object arm
of its field loop run from the empty map. -/
theorem claim_C1_amended :
    (∀ (name jsonTag : String) (ftype : GoType) (rest : FieldList)
        (m : List (String × Ty)) (innerT : Ty) (l : List (String × Ty)),
        isExported name = true → processType ftype = .ok innerT →
        innerT.objectOf = some l → l ≠ [] →
        processFieldsGo (.cons name true jsonTag ftype rest) m
          = processFieldsGo rest (tyMerge m l))
    ∧ (∀ (name jsonTag : String) (ftype : GoType) (rest : FieldList)
        (m : List (String × Ty)) (innerT : Ty),
        isExported name = true → processType ftype = .ok innerT →
        innerT.objectOf = some [] →
        processFieldsGo (.cons name true jsonTag ftype rest) m
          = processFieldsGo rest (tySet m (getFieldKey name jsonTag) innerT))
    ∧ (∀ (name jsonTag : String) (anonymous : Bool) (ftype : GoType) (rest : FieldList)
        (m : List (String × Ty)) (innerT : Ty),
        isExported name = true → processType ftype = .ok innerT →
        (anonymous = false ∨ innerT.objectOf = none) →
        processFieldsGo (.cons name anonymous jsonTag ftype rest) m
          = processFieldsGo rest (tySet m (getFieldKey name jsonTag) innerT))
    ∧ (∀ (name jsonTag : String) (anonymous : Bool) (ftype : GoType) (rest : FieldList)
        (m : List (String × Ty)),
        isExported name = false →
        processFieldsGo (.cons name anonymous jsonTag ftype rest) m = processFieldsGo rest m)
    ∧ (∀ fields : FieldList, processType (.strct fields) =
        match processFieldsGo fields [] with
        | .error err => .error err
        | .ok mm => .ok (Ty.mk 0 none (some mm) none)) := by
  refine ⟨?_, ?_, ?_, ?_, ?_⟩
  · intro name jsonTag ftype rest m innerT l hexp hw hobj hl
    simp [processFieldsGo, hexp, hw, objectFields_some hobj, objectLen_pos hobj hl]
  · intro name jsonTag ftype rest m innerT hexp hw hobj
    simp [processFieldsGo, hexp, hw, objectLen_some_nil hobj]
  · intro name jsonTag anonymous ftype rest m innerT hexp hw hcase
    rcases hcase with h | h
    · subst h
      simp [processFieldsGo, hexp, hw]
    · simp [processFieldsGo, hexp, hw, objectLen_none h]
  · intro name jsonTag anonymous ftype rest m hexp
    simp [processFieldsGo, hexp]
  · intro fields
    rw [processType]

/-- Witness for the amended C1 on the embedded shapes of the repository's
own tests: `BazArgs` (`{aa:int}`) embedded anonymously is merged, an
embedded empty struct is inserted under its key, a named field is
inserted under its tag key, and an unexported field is skipped. -/
theorem claim_C1_amended_witness :
    processFieldsGo (.cons "BazArgs" true "" (.strct (.cons "AA" false "aa" .int .nil)) .nil) []
      = .ok [("aa", scalarTy 2)]
    ∧ processFieldsGo (.cons "E" true "e" (.strct .nil) .nil) []
      = .ok [("e", Ty.mk 0 none (some []) none)]
    ∧ processFieldsGo (.cons "A" false "a" .int .nil) [] = .ok [("a", scalarTy 2)]
    ∧ processFieldsGo (.cons "hidden" false "h" .int .nil) [] = .ok [] := by
  refine ⟨?_, ?_, ?_, ?_⟩
  · rw [(claim_C1_amended).1 "BazArgs" "" (.strct (.cons "AA" false "aa" .int .nil)) .nil []
      (Ty.mk 0 none (some [("aa", scalarTy 2)]) none) [("aa", scalarTy 2)]
      (by decide) (by rfl) (by rfl) (by simp)]
    rfl
  · rw [(claim_C1_amended).2.1 "E" "e" (.strct .nil) .nil []
      (Ty.mk 0 none (some []) none) (by decide) (by rfl) (by rfl)]
    rfl
  · rw [(claim_C1_amended).2.2.1 "A" "a" false .int .nil [] (scalarTy 2)
      (by decide) (by rfl) (Or.inl rfl)]
    rfl
  · rw [(claim_C1_amended).2.2.2.1 "hidden" "h" false .int .nil [] (by decide)]
    rfl

/-! Helper lemmas for the gateway handler. -/

theorem serveTail_finalServices (g : Gateway) (eff : ReqEffects)
    (hdrs : List (String × String)) (c : Nat) (tgt : FwdTarget) :
    (serveTail g eff hdrs c tgt).finalServices = g.services := by
  unfold serveTail
  dsimp only
  repeat first | rfl | split

theorem serveTail_headers (g : Gateway) (eff : ReqEffects)
    (hdrs : List (String × String)) (c : Nat) (tgt : FwdTarget) :
    (serveTail g eff hdrs c tgt).headers = hdrs := by
  unfold serveTail
  dsimp only
  repeat first | rfl | split

theorem serveTail_codecUsed (g : Gateway) (eff : ReqEffects)
    (hdrs : List (String × String)) (c : Nat) (tgt : FwdTarget) :
    (serveTail g eff hdrs c tgt).codecUsed = some c := by
  unfold serveTail
  dsimp only
  repeat first | rfl | split

/-- Unfolding of `serveHTTP` on a POST request: the OPTIONS and 405
checks fall through. -/
theorem serveHTTP_post (g : Gateway) (r : HttpReq) (eff : ReqEffects)
    (hm : r.method = "POST") :
    serveHTTP g r eff =
      match selectCodec g.codecs r.contentType with
      | none =>
        ⟨serveHeaders g r,
          [.plainError 415 ("rpc: unrecognized Content-Type: " ++ prefixBefore r.contentType ';')],
          none, none, none, g.services⟩
      | some c =>
        match eff.codecMethod with
        | .error err => ⟨serveHeaders g r, [.codecError 400 err], some c, none, none, g.services⟩
        | .ok m =>
          match getMethod g m with
          | .error err =>
            if g.backupHandler then serveTail g eff (serveHeaders g r) c .backup
            else ⟨serveHeaders g r, [.codecError 400 err], some c, none, none, g.services⟩
          | .ok (rsrv, _) =>
            serveTail g eff (serveHeaders g r) c
              (.external (rsrv.url.map (resolveURL g.srvResolve))) := by
  unfold serveHTTP
  rw [hm]
  rw [if_neg (by decide), if_neg (by decide)]

theorem serveHTTP_finalServices (g : Gateway) (r : HttpReq) (eff : ReqEffects) :
    (serveHTTP g r eff).finalServices = g.services := by
  unfold serveHTTP
  repeat first | rfl | exact serveTail_finalServices g eff _ _ _ | split

theorem serveHTTP_headers (g : Gateway) (r : HttpReq) (eff : ReqEffects) :
    (serveHTTP g r eff).headers = serveHeaders g r := by
  unfold serveHTTP
  repeat first | rfl | exact serveTail_headers g eff _ _ _ | split

theorem applyCbOp_responded {op : CbOp} {r : ReqCtx} (h : r.responded = true) :
    (applyCbOp op r).responded = true := by
  cases op with
  | writeError status err => simp [applyCbOp, ReqCtx.writeError]
  | writeResponse v => simp [applyCbOp, ReqCtx.writeResponse]
  | updateRequest method params =>
    simp only [applyCbOp, ReqCtx.updateRequest]
    split <;> split <;> simp [h]
  | readRequest => exact h

theorem runCallback_latch {ops : List CbOp} {r : ReqCtx} (h : r.responded = true) :
    (runCallback ops r).responded = true := by
  induction ops generalizing r with
  | nil => exact h
  | cons op rest ih => exact ih (applyCbOp_responded h)

theorem runCallback_responded {ops : List CbOp} {r : ReqCtx}
    (h : ops.any CbOp.isWrite = true) : (runCallback ops r).responded = true := by
  induction ops generalizing r with
  | nil => simp at h
  | cons op rest ih =>
    rw [runCallback]
    rcases (by simpa using h : CbOp.isWrite op = true ∨ rest.any CbOp.isWrite = true) with h1 | h2
    · apply runCallback_latch
      cases op with
      | writeError status err => simp [applyCbOp, ReqCtx.writeError]
      | writeResponse v => simp [applyCbOp, ReqCtx.writeResponse]
      | updateRequest method params => simp [CbOp.isWrite] at h1
      | readRequest => simp [CbOp.isWrite] at h1
    · exact ih h2

/-! Claims about the gateway. -/

/-- Claim C2: if the configured callback invokes `WriteError` or
`WriteResponse`, the responded flag is latched true, and the handler
terminates right after the callback: no outgoing client envelope is
built, nothing is forwarded to the backend or the backup handler, and
the client receives exactly the callback's writes. -/
theorem claim_C2 (g : Gateway) (r : HttpReq) (eff : ReqEffects) (c : Nat) (m : String)
    (ops : List CbOp)
    (hm : r.method = "POST")
    (hsel : selectCodec g.codecs r.contentType = some c)
    (hmeth : eff.codecMethod = .ok m)
    (hroute : (∃ p, getMethod g m = .ok p) ∨ g.backupHandler = true)
    (hcb : g.requestCallback = some ops)
    (hw : ops.any CbOp.isWrite = true) :
    (runCallback ops initialReqCtx).responded = true
    ∧ serveHTTP g r eff =
        ⟨serveHeaders g r, (runCallback ops initialReqCtx).writes, some c,
          none, none, g.services⟩ := by
  have hresp : (runCallback ops initialReqCtx).responded = true := runCallback_responded hw
  refine ⟨hresp, ?_⟩
  have htail : ∀ tgt, serveTail g eff (serveHeaders g r) c tgt =
      ⟨serveHeaders g r, (runCallback ops initialReqCtx).writes, some c,
        none, none, g.services⟩ := by
    intro tgt
    unfold serveTail
    rw [hcb]
    dsimp only
    rw [if_pos hresp]
  rw [serveHTTP_post g r eff hm]
  simp only [hsel, hmeth]
  rcases hroute with ⟨p, hp⟩ | hb
  · obtain ⟨rsrv, meth⟩ := p
    simp only [hp]
    exact htail _
  · cases hgm : getMethod g m with
    | error e =>
      simp only [hgm]
      rw [if_pos hb]
      exact htail _
    | ok p =>
      obtain ⟨rsrv, meth⟩ := p
      simp only [hgm]
      exact htail _

/-- A gateway whose callback writes a response, for the C2 witness. -/
def gwC2 : Gateway :=
  ⟨[], [("application/json", 0)], true,
    some [CbOp.readRequest, CbOp.writeResponse (Json.obj [("Success", Json.bool true)])],
    none, fun h => h⟩

/-- Witness for C2: a callback that reads and then writes a response
latches the flag and the handler emits exactly that write, with no
envelope and no forward. -/
theorem claim_C2_witness :
    (runCallback [CbOp.readRequest,
        CbOp.writeResponse (Json.obj [("Success", Json.bool true)])] initialReqCtx).responded = true
    ∧ serveHTTP gwC2 ⟨"POST", "application/json", ""⟩ ⟨.ok "TestEndpoint.Bar", .ok .null, 200, .ok .null⟩ =
        ⟨serveHeaders gwC2 ⟨"POST", "application/json", ""⟩,
          (runCallback [CbOp.readRequest,
            CbOp.writeResponse (Json.obj [("Success", Json.bool true)])] initialReqCtx).writes,
          some 0, none, none, gwC2.services⟩ :=
  claim_C2 gwC2 ⟨"POST", "application/json", ""⟩ ⟨.ok "TestEndpoint.Bar", .ok .null, 200, .ok .null⟩
    0 "TestEndpoint.Bar"
    [CbOp.readRequest, CbOp.writeResponse (Json.obj [("Success", Json.bool true)])]
    rfl rfl rfl (Or.inr rfl) rfl (by rfl)

/-- The gateway of the C3 counterexample: one codec, a backup handler
configured, no callback and no services. -/
def gwC3 : Gateway := ⟨[], [("application/json", 0)], true, none, none, fun h => h⟩

/-- Counterexample for claim C3: a decoded method `"foo"` with no dot, on
a gateway with a backup handler, is not answered with a 400 codec error;
the request is forwarded to the backup handler and the backend's reply is
re-framed, so the 400-regardless-of-backup reading of the claim is false. -/
theorem claim_C3_counterexample :
    serveHTTP gwC3 ⟨"POST", "application/json", ""⟩ ⟨.ok "foo", .ok .null, 200, .ok .null⟩ =
      ⟨[], [.codecResponse .null], some 0, some ("foo", .null), some .backup, []⟩
    ∧ (serveHTTP gwC3 ⟨"POST", "application/json", ""⟩ ⟨.ok "foo", .ok .null, 200, .ok .null⟩).writes
        ≠ [ClientWrite.codecError 400 "invalid method endpoint given"] := by
  refine ⟨rfl, ?_⟩
  rw [show (serveHTTP gwC3 ⟨"POST", "application/json", ""⟩ ⟨.ok "foo", .ok .null, 200, .ok .null⟩).writes
        = [ClientWrite.codecResponse .null] from rfl]
  simp

/-- Claim C3 as amended: a method that does not split into exactly two
segments on the first dot is rejected with 400 through the codec's error
framer only when no backup handler is configured; with a backup handler
the request proceeds through the normal tail of the handler targeted at
the backup handler instead. -/
theorem claim_C3_amended (g : Gateway) (r : HttpReq) (eff : ReqEffects) (c : Nat) (m : String)
    (hm : r.method = "POST")
    (hsel : selectCodec g.codecs r.contentType = some c)
    (hmeth : eff.codecMethod = .ok m)
    (hsplit : splitMethod m = none) :
    (g.backupHandler = false →
      serveHTTP g r eff = ⟨serveHeaders g r, [.codecError 400 "invalid method endpoint given"],
        some c, none, none, g.services⟩)
    ∧ (g.backupHandler = true →
      serveHTTP g r eff = serveTail g eff (serveHeaders g r) c .backup) := by
  have hgm : getMethod g m = .error "invalid method endpoint given" := by
    unfold getMethod
    rw [hsplit]
  constructor <;> intro hb <;> rw [serveHTTP_post g r eff hm] <;>
    simp only [hsel, hmeth, hgm, hb] <;> simp

/-- Witness for the amended C3: with no backup handler a dotless method
gets the 400 codec error; with a backup handler it reaches the tail and
is forwarded to the backup handler. -/
theorem claim_C3_amended_witness :
    serveHTTP ⟨[], [("application/json", 0)], false, none, none, fun h => h⟩
        ⟨"POST", "application/json", ""⟩ ⟨.ok "foo", .ok .null, 200, .ok .null⟩ =
      ⟨[], [.codecError 400 "invalid method endpoint given"], some 0, none, none, []⟩
    ∧ serveHTTP gwC3 ⟨"POST", "application/json", ""⟩ ⟨.ok "foo", .ok .null, 200, .ok .null⟩ =
        serveTail gwC3 ⟨.ok "foo", .ok .null, 200, .ok .null⟩ [] 0 .backup := by
  constructor
  · exact (claim_C3_amended ⟨[], [("application/json", 0)], false, none, none, fun h => h⟩
      ⟨"POST", "application/json", ""⟩ ⟨.ok "foo", .ok .null, 200, .ok .null⟩ 0 "foo"
      rfl rfl rfl rfl).1 rfl
  · exact (claim_C3_amended gwC3
      ⟨"POST", "application/json", ""⟩ ⟨.ok "foo", .ok .null, 200, .ok .null⟩ 0 "foo"
      rfl rfl rfl rfl).2 rfl

/-- Claim C4: after `UpdateRequest(M, P)` with a non-empty method `M` and
a non-nil `P`, `Method()` returns `M`, and `ReadRequest` yields `P` (up
to the JSON round-trip, which the `Json` model makes exact) regardless of
what the codec's original arguments decode to. -/
theorem claim_C4 (r : ReqCtx) (M : String) (P : Json)
    (codecMethod : Except String String) (codecRead : Except String Json)
    (hM : M ≠ "") :
    ReqCtx.methodOf (ReqCtx.updateRequest r M (some P)) codecMethod = .ok M
    ∧ ReqCtx.readRequest (ReqCtx.updateRequest r M (some P)) codecRead = .ok P := by
  constructor
  · simp [ReqCtx.updateRequest, ReqCtx.methodOf, hM]
  · simp [ReqCtx.updateRequest, ReqCtx.readRequest, hM]

/-- Witness for C4: updating a fresh request context to method
`Service.Meth` with params `5` makes `Method()` return it and
`ReadRequest` see `5` even though the codec reported another method and
other arguments. -/
theorem claim_C4_witness :
    ReqCtx.methodOf (ReqCtx.updateRequest initialReqCtx "Service.Meth" (some (Json.num 5)))
        (.ok "Orig.Method") = .ok "Service.Meth"
    ∧ ReqCtx.readRequest (ReqCtx.updateRequest initialReqCtx "Service.Meth" (some (Json.num 5)))
        (.ok Json.null) = .ok (Json.num 5) :=
  claim_C4 initialReqCtx "Service.Meth" (Json.num 5) (.ok "Orig.Method") (.ok Json.null)
    (by decide)

/-- Claim C5: codec selection strips the Content-Type at the first
semicolon and lowercases it for lookup; the code's order of tests (the
empty-header single-codec default first, then the map lookup) selects
exactly the same codec as the claim's order (lookup first, then the
default), for every codec registry and header; and on a POST request the
selected codec is the one the handler uses, while a failed selection
yields exactly the plain 415 response. -/
theorem claim_C5 :
    (∀ (codecs : List (String × Nat)) (ct : String),
      selectCodec codecs ct = selectCodecSpec codecs ct)
    ∧ (∀ (g : Gateway) (r : HttpReq) (eff : ReqEffects), r.method = "POST" →
        (serveHTTP g r eff).codecUsed = selectCodec g.codecs r.contentType
        ∧ (selectCodec g.codecs r.contentType = none →
            serveHTTP g r eff = ⟨serveHeaders g r,
              [.plainError 415 ("rpc: unrecognized Content-Type: " ++ prefixBefore r.contentType ';')],
              none, none, none, g.services⟩)) := by
  constructor
  · intro codecs ct
    unfold selectCodec selectCodecSpec
    dsimp only
    by_cases h : prefixBefore ct ';' = "" ∧ codecs.length = 1
    · obtain ⟨h1, h2⟩ := h
      obtain ⟨⟨k, c⟩, rfl⟩ : ∃ x, codecs = [x] := by
        cases codecs with
        | nil => simp at h2
        | cons a l =>
          cases l with
          | nil => exact ⟨a, rfl⟩
          | cons b l2 => simp at h2
      rw [if_pos ⟨h1, h2⟩, h1]
      rw [show toLowerStr "" = "" from rfl]
      by_cases hk : k = ""
      · simp [assocGet, hk]
      · simp [assocGet, hk]
    · rw [if_neg h]
      cases ha : assocGet codecs (toLowerStr (prefixBefore ct ';')) with
      | some c => simp [ha]
      | none => simp [ha, h]
  · intro g r eff hm
    rw [serveHTTP_post g r eff hm]
    cases hsel : selectCodec g.codecs r.contentType with
    | none => exact ⟨rfl, fun _ => rfl⟩
    | some c =>
      refine ⟨?_, fun hcontra => by simp at hcontra⟩
      cases hmeth : eff.codecMethod with
      | error e => rfl
      | ok m =>
        cases hgm : getMethod g m with
        | error e =>
          cases hb : g.backupHandler with
          | false => simp [hgm]
          | true => simp [hgm, serveTail_codecUsed]
        | ok p =>
          obtain ⟨rsrv, meth⟩ := p
          simp [hgm, serveTail_codecUsed]

/-- Witness for C5: with one codec registered under `application/json`,
a parameterised upper-case header selects it, an absent header falls
back to it, and an unknown header makes the POST handler answer 415;
selection agrees with the claim-ordered rule in each case. -/
theorem claim_C5_witness :
    selectCodec [("application/json", 7)] "Application/JSON; charset=utf-8"
      = selectCodecSpec [("application/json", 7)] "Application/JSON; charset=utf-8"
    ∧ selectCodec [("application/json", 7)] "" = selectCodecSpec [("application/json", 7)] ""
    ∧ (serveHTTP ⟨[], [("application/json", 7)], false, none, none, fun h => h⟩
        ⟨"POST", "text/xml", ""⟩ ⟨.ok "A.B", .ok .null, 200, .ok .null⟩).codecUsed
        = selectCodec [("application/json", 7)] "text/xml"
    ∧ serveHTTP ⟨[], [("application/json", 7)], false, none, none, fun h => h⟩
        ⟨"POST", "text/xml", ""⟩ ⟨.ok "A.B", .ok .null, 200, .ok .null⟩ =
        ⟨[], [.plainError 415 ("rpc: unrecognized Content-Type: " ++ prefixBefore "text/xml" ';')],
          none, none, none, []⟩ := by
  refine ⟨claim_C5.1 [("application/json", 7)] "Application/JSON; charset=utf-8",
    claim_C5.1 [("application/json", 7)] "",
    (claim_C5.2 ⟨[], [("application/json", 7)], false, none, none, fun h => h⟩
      ⟨"POST", "text/xml", ""⟩ ⟨.ok "A.B", .ok .null, 200, .ok .null⟩ rfl).1,
    (claim_C5.2 ⟨[], [("application/json", 7)], false, none, none, fun h => h⟩
      ⟨"POST", "text/xml", ""⟩ ⟨.ok "A.B", .ok .null, 200, .ok .null⟩ rfl).2 (by rfl)⟩

/-- The gateway and request of the C6 counterexample: a CORS matcher that
accepts the origin `http://x`, and an OPTIONS preflight carrying it. -/
def gwC6 : Gateway :=
  ⟨[], [], false, none, some (fun origin => origin == "http://x"), fun h => h⟩

/-- Counterexample for claim C6: when the Origin matches, the handler
adds `Access-Control-Allow-Methods`, `Access-Control-Allow-Credentials`
and `Access-Control-Allow-Headers` (with the claimed values), not
headers named `Allow-Methods`, `Allow-Credentials`, `Allow-Headers`; the
claimed `Allow-Methods` header is absent from the response. -/
theorem claim_C6_counterexample :
    (serveHTTP gwC6 ⟨"OPTIONS", "", "http://x"⟩ ⟨.ok "A.B", .ok .null, 200, .ok .null⟩).headers
      = corsHeadersList "http://x"
    ∧ ("Allow-Methods", "GET, POST, OPTIONS")
        ∉ (serveHTTP gwC6 ⟨"OPTIONS", "", "http://x"⟩ ⟨.ok "A.B", .ok .null, 200, .ok .null⟩).headers := by
  refine ⟨rfl, ?_⟩
  rw [show (serveHTTP gwC6 ⟨"OPTIONS", "", "http://x"⟩ ⟨.ok "A.B", .ok .null, 200, .ok .null⟩).headers
        = corsHeadersList "http://x" from rfl]
  decide

/-- Claim C6 as amended: when the Origin header is non-empty and matches
the configured matcher, the response carries exactly the four
`Access-Control-*` headers — `Access-Control-Allow-Origin` echoing the
origin, `Access-Control-Allow-Methods: GET, POST, OPTIONS`,
`Access-Control-Allow-Credentials: true`,
`Access-Control-Allow-Headers: DNT, User-Agent, X-Requested-With,
Content-Type` — and an OPTIONS request then terminates with those
headers, no body writes, no envelope and no forward (Go's implicit 200). -/
theorem claim_C6_amended (g : Gateway) (r : HttpReq) (eff : ReqEffects)
    (f : String → Bool)
    (hc : g.corsMatch = some f) (ho : r.origin ≠ "") (hf : f r.origin = true) :
    (serveHTTP g r eff).headers = corsHeadersList r.origin
    ∧ (r.method = "OPTIONS" →
        serveHTTP g r eff = ⟨corsHeadersList r.origin, [], none, none, none, g.services⟩) := by
  have hh : serveHeaders g r = corsHeadersList r.origin := by
    unfold serveHeaders
    rw [hc]
    dsimp only
    rw [if_pos ⟨ho, hf⟩]
  constructor
  · rw [serveHTTP_headers, hh]
  · intro hopt
    unfold serveHTTP
    rw [hopt, if_pos rfl, hh]

/-- Witness for the amended C6: the gateway of the counterexample, with a
matching origin, answers an OPTIONS preflight with exactly the four
`Access-Control-*` headers and nothing else. -/
theorem claim_C6_amended_witness :
    (serveHTTP gwC6 ⟨"OPTIONS", "", "http://x"⟩ ⟨.ok "A.B", .ok .null, 200, .ok .null⟩).headers
      = corsHeadersList "http://x"
    ∧ serveHTTP gwC6 ⟨"OPTIONS", "", "http://x"⟩ ⟨.ok "A.B", .ok .null, 200, .ok .null⟩ =
        ⟨corsHeadersList "http://x", [], none, none, none, []⟩ := by
  have h := claim_C6_amended gwC6 ⟨"OPTIONS", "", "http://x"⟩ ⟨.ok "A.B", .ok .null, 200, .ok .null⟩
    (fun origin => origin == "http://x") rfl (by decide) (by decide)
  exact ⟨h.1, h.2 rfl⟩

/-- Claim C9: per-call resolution is mutation-free — `resolveURL` returns
a fresh URL differing from its input in at most the Host field; one
request handling leaves the service registry exactly as it was; any
number of handlings leave it unchanged; and `GetMethodURL` returns the
per-call resolution of the URL stored in the (unchanged) registry entry. -/
theorem claim_C9 :
    (∀ (resolve : String → String) (u : URL),
        (resolveURL resolve u).host = resolve u.host
        ∧ (resolveURL resolve u).scheme = u.scheme
        ∧ (resolveURL resolve u).opaquePart = u.opaquePart
        ∧ (resolveURL resolve u).user = u.user
        ∧ (resolveURL resolve u).path = u.path
        ∧ (resolveURL resolve u).rawPath = u.rawPath
        ∧ (resolveURL resolve u).rawQuery = u.rawQuery
        ∧ (resolveURL resolve u).fragment = u.fragment)
    ∧ (∀ (g : Gateway) (r : HttpReq) (eff : ReqEffects),
        (serveHTTP g r eff).finalServices = g.services)
    ∧ (∀ (g : Gateway) (rs : List (HttpReq × ReqEffects)),
        rs.foldl (fun g' re => { g' with services := (serveHTTP g' re.1 re.2).finalServices }) g
          = g)
    ∧ (∀ (g : Gateway) (mStr : String) (rsrv : RemoteService) (meth : GMethod),
        getMethod g mStr = .ok (rsrv, meth) →
        (getMethodURL g mStr).1 = rsrv.url.map (resolveURL g.srvResolve)) := by
  refine ⟨?_, serveHTTP_finalServices, ?_, ?_⟩
  · intro resolve u
    exact ⟨rfl, rfl, rfl, rfl, rfl, rfl, rfl, rfl⟩
  · intro g rs
    induction rs generalizing g with
    | nil => rfl
    | cons re rest ih =>
      rw [List.foldl_cons, serveHTTP_finalServices]
      exact ih g
  · intro g mStr rsrv meth h
    unfold getMethodURL
    rw [h]

/-- A one-service registry for the C9 witness. -/
def gwC9 : Gateway :=
  ⟨[("S", ⟨⟨"S", [("M", ⟨"M", none, none⟩)]⟩,
      some ⟨"http", "", none, "srv.host", "/", "", "", ""⟩, "http://srv.host/"⟩)],
    [], false, none, none, fun h => h⟩

/-- Witness for C9: resolving a concrete URL changes only the host, a
concrete request handling leaves the registry list unchanged, and
`GetMethodURL` on the registered `S.M` returns the stored URL resolved
per call. -/
theorem claim_C9_witness :
    (resolveURL (fun _ => "10.0.0.1:80") ⟨"http", "", none, "srv.host", "/", "", "", ""⟩).host
      = "10.0.0.1:80"
    ∧ (resolveURL (fun _ => "10.0.0.1:80") ⟨"http", "", none, "srv.host", "/", "", "", ""⟩).scheme
      = "http"
    ∧ (serveHTTP gwC9 ⟨"POST", "", ""⟩ ⟨.ok "S.M", .ok .null, 200, .ok .null⟩).finalServices
      = gwC9.services
    ∧ (getMethodURL gwC9 "S.M").1 =
        Option.map (resolveURL gwC9.srvResolve)
          (some ⟨"http", "", none, "srv.host", "/", "", "", ""⟩) := by
  refine ⟨(claim_C9.1 (fun _ => "10.0.0.1:80") ⟨"http", "", none, "srv.host", "/", "", "", ""⟩).1,
    (claim_C9.1 (fun _ => "10.0.0.1:80") ⟨"http", "", none, "srv.host", "/", "", "", ""⟩).2.1,
    claim_C9.2.1 gwC9 ⟨"POST", "", ""⟩ ⟨.ok "S.M", .ok .null, 200, .ok .null⟩,
    claim_C9.2.2.2 gwC9 "S.M" ⟨⟨"S", [("M", ⟨"M", none, none⟩)]⟩,
      some ⟨"http", "", none, "srv.host", "/", "", "", ""⟩, "http://srv.host/"⟩
      ⟨"M", none, none⟩ (by rfl)⟩

/-- Claim C10: `AddURL` is atomic on error — whenever it returns an
error (unparseable URL, empty host, failed `RPC.GetServices` fetch), the
gateway is left exactly as it was; and on success the registry is
exactly the old one with every fetched service inserted, the fetch
having been performed against the per-call resolved URL. -/
theorem claim_C10 (parseURL : String → Option URL)
    (fetch : URL → Except String (List GService)) (g : Gateway) (u0 : String) :
    ((∃ e, (addURL parseURL fetch g u0).1 = .error e) → (addURL parseURL fetch g u0).2 = g)
    ∧ (∀ (uu : URL) (svcs : List GService),
        parseURL (if httpPrefixed u0 then u0 else "http://" ++ u0) = some uu →
        fetch (resolveURL g.srvResolve uu) = .ok svcs →
        uu.host ≠ "" →
        addURL parseURL fetch g u0 =
          (.ok (), { g with services := (insertServices g.services svcs uu
              (if httpPrefixed u0 then u0 else "http://" ++ u0)) })) := by
  constructor
  · rintro ⟨e, he⟩
    cases hp : parseURL (if httpPrefixed u0 then u0 else "http://" ++ u0) with
    | none => simp [addURL, hp]
    | some uu =>
      by_cases hh : uu.host = ""
      · simp [addURL, hp, hh]
      · cases hf : fetch (resolveURL g.srvResolve uu) with
        | error er => simp [addURL, hp, hh, hf]
        | ok svcs => simp [addURL, hp, hh, hf] at he
  · intro uu svcs hp hf hh
    simp [addURL, hp, hh, hf]

/-- Witness for C10: an unparseable URL leaves a concrete gateway
unchanged, and a successful parse-and-fetch run inserts exactly the
fetched service. -/
theorem claim_C10_witness :
    (addURL (fun _ => none) (fun _ => .error "unreachable") gwC9 "srv.host").2 = gwC9
    ∧ addURL (fun _ => some ⟨"http", "", none, "srv.host", "/", "", "", ""⟩)
        (fun _ => .ok [⟨"T", []⟩]) gwC9 "srv.host" =
        (.ok (), { gwC9 with services := (insertServices gwC9.services [⟨"T", []⟩]
            ⟨"http", "", none, "srv.host", "/", "", "", ""⟩
            (if httpPrefixed "srv.host" then "srv.host" else "http://" ++ "srv.host")) }) := by
  constructor
  · exact (claim_C10 (fun _ => none) (fun _ => .error "unreachable") gwC9 "srv.host").1
      ⟨"url parse error", rfl⟩
  · exact (claim_C10 (fun _ => some ⟨"http", "", none, "srv.host", "/", "", "", ""⟩)
      (fun _ => .ok [⟨"T", []⟩]) gwC9 "srv.host").2
      ⟨"http", "", none, "srv.host", "/", "", "", ""⟩ [⟨"T", []⟩] rfl rfl (by decide)

end GatewayRPC
